import Mathlib

/-!
A shallow embedding, in Lean 4, of the batch audio-normalizer in
`src/main.py` (WAVs-Nomalizer), together with theorems settling the spec's
claims about it.

Modelling conventions:
* Python strings are `String`; `os.path` functions are modelled with POSIX
  separator semantics (`posixpath`), translated from CPython's algorithms.
* External library calls (torchaudio load / sox effects / save, the
  filesystem) are abstracted into an `Env` record: each call either succeeds
  or raises an exception carrying a message, chosen by the environment.
* The process pool delivers results in a nondeterministic completion order;
  the embedding takes that order as an explicit parameter `order`, which the
  correctness theorems quantify over all permutations of the submitted list.
* `time.time()` arithmetic uses `ℚ` for exactness.
-/

namespace WavsNomalizer

/-- The compute backend: what `torch.device("cuda" ...)` / `("cpu")` resolve to. -/
inductive Device where
  | cuda
  | cpu
  deriving DecidableEq, Repr

/-- Module-level global state of `main.py`: the single module global `DEVICE`
(line 73), assigned once at module import time. -/
structure Globals where
  DEVICE : Device
  deriving DecidableEq, Repr

/-- Line 73: `torch.device("cuda" if torch.cuda.is_available() else "cpu")`. -/
def torch_device (cuda_available : Bool) : Device :=
  if cuda_available then Device.cuda else Device.cpu

/-- Python `s.rfind(c)`: index of the last occurrence of `c`, or `-1`. -/
def rfind (c : Char) (s : List Char) : Int :=
  match List.findIdx? (fun a => a == c) s.reverse with
  | none => -1
  | some j => (s.length : Int) - 1 - j

/-- `posixpath.basename p`: CPython computes `p[p.rfind(sep) + 1:]`, the part
of `p` strictly after the last `/`, i.e. the maximal suffix of `p` free of the
separator — rendered here as such. -/
def basename (p : String) : String :=
  String.mk ((p.toList.reverse.takeWhile (fun c => c != '/')).reverse)

/-- The first component (the stem) of `posixpath.splitext p`, translated from
CPython's `genericpath._splitext`: split at the last dot after the last
separator, except that leading dots of the final path component never begin
an extension. -/
def splitextStem (p : String) : String :=
  let s := p.toList
  let sepIndex := rfind '/' s
  let dotIndex := rfind '.' s
  if sepIndex < dotIndex then
    let start := (sepIndex + 1).toNat
    let stop := dotIndex.toNat
    if (List.range (stop - start)).any (fun k => s.getD (start + k) '.' != '.') then
      String.mk (s.take stop)
    else p
  else p

/-- Python `b.startswith('/')`. -/
def startsWithSep (s : String) : Bool := s.toList.head? == some '/'

/-- Python `a.endswith('/')`. -/
def endsWithSep (s : String) : Bool := s.toList.getLast? == some '/'

/-- `posixpath.join a b` (two-argument form, as used in the source): `b` if it
is absolute; otherwise `a ++ b` when `a` is empty or ends in the separator,
else `a ++ "/" ++ b`. -/
def joinPath (a b : String) : String :=
  if startsWithSep b then b
  else if a == "" || endsWithSep a then a ++ b
  else a ++ "/" ++ b

/-- Python `str.lower()`, per character (sufficient for the ASCII extensions
compared against). -/
def lowerStr (s : String) : String := String.mk (s.toList.map Char.toLower)

/-- Line 64: `f.lower().endswith(('.wav', '.mp3'))`. -/
def hasAudioExt (f : String) : Bool :=
  List.isSuffixOf (".wav".toList) (lowerStr f).toList ||
    List.isSuffixOf (".mp3".toList) (lowerStr f).toList

/-- `pat` occurs at the start of `s`. -/
def leadsWith : List Char → List Char → Bool
  | [], _ => true
  | _ :: _, [] => false
  | a :: as, b :: bs => a == b && leadsWith as bs

/-- `pat` occurs contiguously somewhere in `s`: Python's `pat in s`. -/
def occursIn (pat : List Char) : List Char → Bool
  | [] => leadsWith pat []
  | b :: bs => leadsWith pat (b :: bs) || occursIn pat bs

/-- Python's substring test `pat in s` on strings. -/
def containsSub (pat s : String) : Bool := occursIn pat.toList s.toList

/-- Line 133's failure classification applied to a result string:
`"エラー" in result`. -/
def containsErr (s : String) : Bool := containsSub "エラー" s

/-- Abstract I/O environment of one run. Each field models an external call
inside `process_single_file`'s `try` block: `none` means the call succeeds,
`some cause` means it raises an exception whose message is `cause`.
`loadFails` is `torchaudio.load` (line 83); `effectFails` is the move to the
device plus `apply_effects_tensor` (lines 84, 95-97), which may depend on the
selected backend; `saveFails` is `torchaudio.save` (lines 105, 108). -/
structure Env where
  loadFails : String → Option String
  effectFails : Device → String → Option String
  saveFails : String → Option String

/-- The message built by the `except` handler at lines 111-112:
`f"ファイル処理中にエラーが発生しました: {file_path}\n{e}"`. -/
def processingErrMsg (file_path cause : String) : String :=
  "ファイル処理中にエラーが発生しました: " ++ file_path ++ "\n" ++ cause

/-- The output path computed at lines 100-108: the basename of the source
with its extension split off, plus `.wav` or `.mp3` (any format other than
`"wav"` takes the mp3 branch, mirroring the source's `else`). -/
def outputPathFor (file_path output_dir output_format : String) : String :=
  let file_name := splitextStem (basename file_path)
  if output_format == "wav" then joinPath output_dir (file_name ++ ".wav")
  else joinPath output_dir (file_name ++ ".mp3")

/-- `process_single_file` (lines 76-112): load, apply effects on the global
`DEVICE`, save; on success return the output path, and any exception in the
`try` block is caught and turned into the error message string. -/
def process_single_file (env : Env) (g : Globals)
    (file_path output_dir output_format : String) : String :=
  match env.loadFails file_path with
  | some e => processingErrMsg file_path e
  | none =>
    match env.effectFails g.DEVICE file_path with
    | some e => processingErrMsg file_path e
    | none =>
      match env.saveFails file_path with
      | some e => processingErrMsg file_path e
      | none => outputPathFor file_path output_dir output_format

/-- Processing `fp` raises an exception with message `cause` at one of the
three stages of the `try` block (decode, effect application, file write). -/
def raisesWith (env : Env) (g : Globals) (fp cause : String) : Prop :=
  env.loadFails fp = some cause ∨
    (env.loadFails fp = none ∧ env.effectFails g.DEVICE fp = some cause) ∨
    (env.loadFails fp = none ∧ env.effectFails g.DEVICE fp = none ∧
      env.saveFails fp = some cause)

/-- No stage of processing `fp` raises. -/
def noFail (env : Env) (g : Globals) (fp : String) : Prop :=
  env.loadFails fp = none ∧ env.effectFails g.DEVICE fp = none ∧
    env.saveFails fp = none

instance (env : Env) (g : Globals) (fp cause : String) :
    Decidable (raisesWith env g fp cause) := by
  unfold raisesWith; infer_instance

instance (env : Env) (g : Globals) (fp : String) : Decidable (noFail env g fp) := by
  unfold noFail; infer_instance

/-- Following the spec's words (§4.2, §4.5): `EffectChain.process(sourcePath,
outputDir, format, backend)` — the same per-file pipeline, but with the
compute backend received as an explicit argument instead of being read from
the module global. Used to compare the source's data flow against the spec's
claimed one. -/
def effectChain_spec (env : Env) (backend : Device)
    (file_path output_dir output_format : String) : String :=
  match env.loadFails file_path with
  | some e => processingErrMsg file_path e
  | none =>
    match env.effectFails backend file_path with
    | some e => processingErrMsg file_path e
    | none =>
      match env.saveFails file_path with
      | some e => processingErrMsg file_path e
      | none => outputPathFor file_path output_dir output_format

/-- State of the result-collection loop of `process_audio_files`
(lines 130-140): the `errors` list, `processed_count`, and the sequence of
`progress_callback(processed_count, len(file_list))` invocations so far. -/
structure LoopState where
  errors : List String
  processed_count : Nat
  calls : List (Nat × Nat)
  deriving DecidableEq, Repr

/-- One iteration of `for future in as_completed(...)` (lines 131-140):
classify the result, append it to `errors` when it contains `"エラー"`,
increment the count, then invoke the progress callback. -/
def dispatchStep (total : Nat) (st : LoopState) (result : String) : LoopState :=
  let errors := if containsErr result then st.errors ++ [result] else st.errors
  let processed_count := st.processed_count + 1
  { errors := errors, processed_count := processed_count,
    calls := st.calls ++ [(processed_count, total)] }

/-- The collection loop, run over the task results in completion order. -/
def dispatchLoop (total : Nat) (results : List String) : LoopState :=
  results.foldl (dispatchStep total) ⟨[], 0, []⟩

/-- The per-task result strings in completion order `order`: each completed
future's `future.result()` is what `process_single_file` returned for its
file. -/
def completionResults (env : Env) (g : Globals)
    (output_dir output_format : String) (order : List String) : List String :=
  order.map (fun fp => process_single_file env g fp output_dir output_format)

/-- `process_audio_files` (lines 114-149). `order` is the completion order
the pool delivers: a permutation of `file_list`. `max_workers` bounds the
pool; it influences only which completion orders are possible, so it is
quantified over in the theorems but unused in the dataflow, exactly as in
the source where it only parametrises `ProcessPoolExecutor`. Returns `none`
on success and `some joinedErrors` otherwise (lines 145-149). -/
def process_audio_files (env : Env) (g : Globals) (file_list : List String)
    (output_dir output_format : String) (max_workers : Nat)
    (order : List String) : Option String :=
  let st := dispatchLoop file_list.length
      (completionResults env g output_dir output_format order)
  if st.errors.isEmpty then none
  else some (String.intercalate "\n" st.errors)

/-- The sequence of `progress_callback` invocations a run performs (when a
callback is supplied, as in GUI mode; lines 137-138). -/
def progressCalls (env : Env) (g : Globals) (file_list : List String)
    (output_dir output_format : String) (order : List String) : List (Nat × Nat) :=
  (dispatchLoop file_list.length
      (completionResults env g output_dir output_format order)).calls

/-- The accumulated error report of a run, in arrival order. -/
def errorReport (env : Env) (g : Globals) (file_list : List String)
    (output_dir output_format : String) (order : List String) : List String :=
  (dispatchLoop file_list.length
      (completionResults env g output_dir output_format order)).errors

/-- Python `f"{i:02d}"`: zero-pad a single nonnegative digit to width two;
all other integers already reach width two under `str`. -/
def fmt02 (i : Int) : String :=
  if 0 ≤ i ∧ i < 10 then "0" ++ toString i else toString i

/-- `AudioNormalizerGUI.update_progress` (lines 274-289), reduced to the
status string it displays: `divmod(estimated_remaining_time, 60)` yields
`mins = ⌊x/60⌋` and `secs = x - 60*mins`, and `int(...)` floors each
(both are nonnegative whenever `elapsed` is). -/
def update_progress_status (value max_value : Nat) (elapsed : ℚ) : String :=
  let status_text := "処理中... (" ++ toString value ++ "/" ++ toString max_value ++ ")"
  if 0 < value ∧ value < max_value then
    let avg_time_per_file := elapsed / (value : ℚ)
    let files_remaining : ℚ := (max_value : ℚ) - (value : ℚ)
    let estimated_remaining_time := avg_time_per_file * files_remaining
    let mins : Int := ⌊estimated_remaining_time / 60⌋
    let secs : Int := ⌊estimated_remaining_time - 60 * (mins : ℚ)⌋
    status_text ++ " - 残り時間: 約" ++ fmt02 mins ++ ":" ++ fmt02 secs
  else status_text

/-- The filesystem as `get_audio_files` sees it: `os.path.isdir` and
`os.listdir`. -/
structure FS where
  isDir : String → Bool
  listDir : String → List String

/-- `get_audio_files` (lines 56-70): not a directory ⇒ error message; else
filter the listing by extension and join each name onto the directory; empty
⇒ warning message; else the file list. -/
def get_audio_files (fs : FS) (directory : String) :
    Option (List String) × Option String :=
  if !(fs.isDir directory) then
    (none, some ("エラー: 指定されたパスはディレクトリではありません: " ++ directory))
  else
    let files := ((fs.listDir directory).filter hasAudioExt).map
        (fun f => joinPath directory f)
    if files.isEmpty then
      (none, some ("警告: ディレクトリ内に処理対象の音声ファイルが見つかりません: " ++ directory))
    else (some files, none)

/-- The batch output directory: `f"{input_dir}-Nomalized"` (GUI line 238,
CUI line 354). -/
def cuiOutputDir (input_dir : String) : String := input_dir ++ "-Nomalized"

/-- Outcome of a `--no-gui` run of `main`: either an explicit `sys.exit code`
(or argparse's exit), or `finished batchError`, where `main` ran the batch,
printed, returned, and the interpreter exited normally (status 0). -/
inductive MainResult where
  | exit : Nat → MainResult
  | finished : Option String → MainResult
  deriving DecidableEq, Repr

/-- The process exit status a `MainResult` produces. -/
def exitCode : MainResult → Nat
  | MainResult.exit c => c
  | MainResult.finished _ => 0

/-- `main` (lines 313-368), `--no-gui` path. `ffmpeg_ok` is what
`check_ffmpeg()` returned. A missing `--input` goes through argparse's
`parser.error` (line 344), which prints usage and calls `sys.exit(2)`. -/
def main_nogui (fs : FS) (env : Env) (g : Globals) (ffmpeg_ok : Bool)
    (input_dir : Option String) (fmt : String) (workers : Nat)
    (order : List String) : MainResult :=
  if !ffmpeg_ok then MainResult.exit 1
  else
    match input_dir with
    | none => MainResult.exit 2
    | some dir =>
      let ga := get_audio_files fs dir
      match ga.2 with
      | some _ => MainResult.exit 1
      | none =>
        MainResult.finished
          (process_audio_files env g (ga.1.getD []) (cuiOutputDir dir) fmt
            workers order)

/-- A concrete run environment in which every external call succeeds. -/
def envOK : Env := ⟨fun _ => none, fun _ _ => none, fun _ => none⟩

/-- A concrete run environment in which decoding `"/in/bad.wav"` raises and
everything else succeeds. -/
def envBad : Env :=
  ⟨fun fp => if fp = "/in/bad.wav" then some "Failed to decode" else none,
   fun _ _ => none, fun _ => none⟩

/-- A concrete run environment in which the effect stage raises on the CUDA
backend only. -/
def envCudaOOM : Env :=
  ⟨fun _ => none,
   fun d _ => if d = Device.cuda then some "CUDA out of memory" else none,
   fun _ => none⟩

/-- Globals with a CPU backend. -/
def gCPU : Globals := ⟨Device.cpu⟩

/-- A concrete filesystem: `"/in"` holds two audio files plus a text file,
`"/empty"` holds no audio file, and nothing else is a directory. -/
def fsW : FS :=
  ⟨fun d => d == "/in" || d == "/empty",
   fun d =>
     if d == "/in" then ["a.wav", "bad.wav", "notes.txt"]
     else if d == "/empty" then ["x.txt"] else []⟩

/-! ### Helper lemmas -/

theorem leadsWith_append (pat s t : List Char) (h : leadsWith pat s = true) :
    leadsWith pat (s ++ t) = true := by
  induction pat generalizing s with
  | nil => rfl
  | cons a as ih =>
    cases s with
    | nil => simp [leadsWith] at h
    | cons b bs =>
      simp only [leadsWith, Bool.and_eq_true] at h
      simp only [List.cons_append, leadsWith, Bool.and_eq_true]
      exact ⟨h.1, ih bs h.2⟩

theorem leadsWith_refl (pat rest : List Char) : leadsWith pat (pat ++ rest) = true := by
  induction pat with
  | nil => rfl
  | cons a as ih => simp [leadsWith, ih]

theorem leadsWith_self (pat : List Char) : leadsWith pat pat = true := by
  have := leadsWith_refl pat []
  simpa using this

theorem occursIn_of_leadsWith (pat s : List Char) (h : leadsWith pat s = true) :
    occursIn pat s = true := by
  cases s with
  | nil => simpa [occursIn] using h
  | cons b bs => simp [occursIn, h]

theorem occursIn_append_right (pat s t : List Char) (h : occursIn pat s = true) :
    occursIn pat (s ++ t) = true := by
  induction s with
  | nil =>
    apply occursIn_of_leadsWith
    apply leadsWith_append
    simpa [occursIn] using h
  | cons b bs ih =>
    simp only [occursIn, Bool.or_eq_true] at h
    simp only [List.cons_append, occursIn, Bool.or_eq_true]
    rcases h with h | h
    · exact Or.inl (leadsWith_append _ _ _ h)
    · exact Or.inr (ih h)

theorem occursIn_append_left (pat pre s : List Char) (h : occursIn pat s = true) :
    occursIn pat (pre ++ s) = true := by
  induction pre with
  | nil => simpa using h
  | cons b bs ih =>
    simp only [List.cons_append, occursIn, Bool.or_eq_true]
    exact Or.inr ih

theorem toList_processingErrMsg (fp cause : String) :
    (processingErrMsg fp cause).toList =
      "ファイル処理中にエラーが発生しました: ".toList ++
        (fp.toList ++ ("\n".toList ++ cause.toList)) := by
  simp [processingErrMsg, String.toList, String.data_append]

theorem containsSub_processingErrMsg_path (fp cause : String) :
    containsSub fp (processingErrMsg fp cause) = true := by
  unfold containsSub
  rw [toList_processingErrMsg]
  exact occursIn_append_left _ _ _
    (occursIn_of_leadsWith _ _ (leadsWith_refl _ _))

theorem containsSub_processingErrMsg_cause (fp cause : String) :
    containsSub cause (processingErrMsg fp cause) = true := by
  unfold containsSub
  rw [toList_processingErrMsg]
  refine occursIn_append_left _ _ _ (occursIn_append_left _ _ _ ?_)
  exact occursIn_append_left _ _ _
    (occursIn_of_leadsWith _ _ (leadsWith_self _))

theorem containsErr_processingErrMsg (fp cause : String) :
    containsErr (processingErrMsg fp cause) = true := by
  unfold containsErr containsSub
  rw [toList_processingErrMsg]
  exact occursIn_append_right _ _ _ (by decide)

theorem process_single_file_of_raises (env : Env) (g : Globals)
    (fp output_dir output_format cause : String)
    (h : raisesWith env g fp cause) :
    process_single_file env g fp output_dir output_format =
      processingErrMsg fp cause := by
  rcases h with h1 | ⟨h1, h2⟩ | ⟨h1, h2, h3⟩
  · simp [process_single_file, h1]
  · simp [process_single_file, h1, h2]
  · simp [process_single_file, h1, h2, h3]

theorem process_single_file_of_noFail (env : Env) (g : Globals)
    (fp output_dir output_format : String) (h : noFail env g fp) :
    process_single_file env g fp output_dir output_format =
      outputPathFor fp output_dir output_format := by
  obtain ⟨h1, h2, h3⟩ := h
  simp [process_single_file, h1, h2, h3]

theorem foldl_dispatchStep_errors (total : Nat) (rs : List String) (st : LoopState) :
    (rs.foldl (dispatchStep total) st).errors =
      st.errors ++ rs.filter (fun r => containsErr r) := by
  induction rs generalizing st with
  | nil => simp
  | cons r rs ih =>
    rw [List.foldl_cons, ih, List.filter_cons]
    cases h : containsErr r <;> simp [dispatchStep, h]

theorem foldl_dispatchStep_count (total : Nat) (rs : List String) (st : LoopState) :
    (rs.foldl (dispatchStep total) st).processed_count =
      st.processed_count + rs.length := by
  induction rs generalizing st with
  | nil => simp
  | cons r rs ih =>
    rw [List.foldl_cons, ih]
    show st.processed_count + 1 + rs.length = st.processed_count + (rs.length + 1)
    omega

theorem foldl_dispatchStep_calls (total : Nat) (rs : List String) (st : LoopState) :
    (rs.foldl (dispatchStep total) st).calls =
      st.calls ++ (List.range rs.length).map
        (fun i => (st.processed_count + 1 + i, total)) := by
  induction rs generalizing st with
  | nil => simp
  | cons r rs ih =>
    rw [List.foldl_cons, ih]
    simp only [dispatchStep, List.length_cons, List.range_succ_eq_map,
      List.map_cons, List.map_map, List.append_assoc, List.singleton_append]
    have h1 : st.processed_count + 1 + 0 = st.processed_count + 1 := by omega
    rw [h1]
    congr 2
    apply List.map_congr_left
    intro i _
    simp only [Function.comp_apply, Prod.mk.injEq, Nat.succ_eq_add_one]
    exact ⟨by omega, trivial⟩

theorem dispatchLoop_errors (total : Nat) (rs : List String) :
    (dispatchLoop total rs).errors = rs.filter (fun r => containsErr r) := by
  have := foldl_dispatchStep_errors total rs ⟨[], 0, []⟩
  simpa [dispatchLoop] using this

theorem dispatchLoop_calls (total : Nat) (rs : List String) :
    (dispatchLoop total rs).calls =
      (List.range rs.length).map (fun i => (i + 1, total)) := by
  have := foldl_dispatchStep_calls total rs ⟨[], 0, []⟩
  simp only [dispatchLoop] at this ⊢
  rw [this]
  simp [Nat.add_comm]

theorem process_audio_files_none_iff (env : Env) (g : Globals)
    (file_list : List String) (output_dir output_format : String)
    (max_workers : Nat) (order : List String) :
    process_audio_files env g file_list output_dir output_format max_workers
        order = none ↔
      errorReport env g file_list output_dir output_format order = [] := by
  unfold process_audio_files errorReport
  cases h : (dispatchLoop file_list.length
      (completionResults env g output_dir output_format order)).errors with
  | nil => simp [h]
  | cons e es => simp [h]

theorem floor_div_int_pos (r : ℚ) (d : ℤ) (hd : 0 < d) :
    ⌊r / (d : ℚ)⌋ = ⌊r⌋ / d := by
  have hd0 : (0 : ℚ) < (d : ℚ) := by exact_mod_cast hd
  rw [Int.floor_eq_iff]
  constructor
  · rw [le_div_iff₀ hd0]
    have h1 : d * (⌊r⌋ / d) ≤ ⌊r⌋ := by
      have hmod : 0 ≤ ⌊r⌋ % d := Int.emod_nonneg _ (ne_of_gt hd)
      have hdm := Int.ediv_add_emod ⌊r⌋ d
      omega
    calc ((⌊r⌋ / d : ℤ) : ℚ) * (d : ℚ) = ((d * (⌊r⌋ / d) : ℤ) : ℚ) := by
          push_cast; ring
      _ ≤ ((⌊r⌋ : ℤ) : ℚ) := by exact_mod_cast h1
      _ ≤ r := Int.floor_le r
  · rw [div_lt_iff₀ hd0]
    have h2 : ⌊r⌋ + 1 ≤ d * (⌊r⌋ / d) + d := by
      have hmod : ⌊r⌋ % d < d := Int.emod_lt_of_pos _ hd
      have hdm := Int.ediv_add_emod ⌊r⌋ d
      omega
    calc r < ((⌊r⌋ : ℤ) : ℚ) + 1 := Int.lt_floor_add_one r
      _ ≤ ((d * (⌊r⌋ / d) + d : ℤ) : ℚ) := by exact_mod_cast h2
      _ = (((⌊r⌋ / d : ℤ) : ℚ) + 1) * (d : ℚ) := by push_cast; ring

theorem floor_div_sixty (r : ℚ) : ⌊r / 60⌋ = ⌊r⌋ / 60 := by
  have h := floor_div_int_pos r 60 (by norm_num)
  have h60 : ((60 : ℤ) : ℚ) = (60 : ℚ) := by norm_num
  rw [h60] at h
  exact h

theorem floor_sub_sixty_floor (r : ℚ) :
    ⌊r - 60 * (⌊r / 60⌋ : ℚ)⌋ = ⌊r⌋ % 60 := by
  rw [floor_div_sixty]
  have hc : (60 : ℚ) * ((⌊r⌋ / 60 : ℤ) : ℚ) = ((60 * (⌊r⌋ / 60) : ℤ) : ℚ) := by
    push_cast; ring
  rw [hc, Int.floor_sub_int]
  have := Int.emod_def ⌊r⌋ 60
  omega

theorem mem_splitextStem (p : String) (c : Char)
    (h : c ∈ (splitextStem p).toList) : c ∈ p.toList := by
  simp only [splitextStem] at h
  split at h
  · split at h
    · exact List.mem_of_mem_take (by simpa using h)
    · exact h
  · exact h

theorem basename_ne_sep (p : String) (c : Char)
    (h : c ∈ (basename p).toList) : c ≠ '/' := by
  unfold basename at h
  rw [show (String.mk ((p.toList.reverse.takeWhile (fun c => c != '/')).reverse)).toList
      = (p.toList.reverse.takeWhile (fun c => c != '/')).reverse from rfl,
    List.mem_reverse] at h
  have hp := List.mem_takeWhile_imp h
  simpa using hp

theorem joinPath_of_plain (dir b : String) (hdir1 : dir.toList ≠ [])
    (hdir2 : dir.toList.getLast? ≠ some '/')
    (hb : b.toList.head? ≠ some '/') :
    joinPath dir b = dir ++ "/" ++ b := by
  have h1 : startsWithSep b = false := by
    simp only [startsWithSep, beq_eq_false_iff_ne, ne_eq]
    exact hb
  have h2 : (dir == "") = false := by
    rw [beq_eq_false_iff_ne]
    intro e
    apply hdir1
    rw [e]
    rfl
  have h3 : endsWithSep dir = false := by
    simp only [endsWithSep, beq_eq_false_iff_ne, ne_eq]
    exact hdir2
  simp [joinPath, h1, h2, h3]

theorem nomalized_toList_ne_nil (D : String) : (cuiOutputDir D).toList ≠ [] := by
  intro h
  rw [show (cuiOutputDir D).toList = D.toList ++ "-Nomalized".toList from
    String.data_append D "-Nomalized"] at h
  rcases List.append_eq_nil.mp h with ⟨_, h2⟩
  exact absurd h2 (by decide)

theorem nomalized_getLast (D : String) :
    (cuiOutputDir D).toList.getLast? = some 'd' := by
  rw [show (cuiOutputDir D).toList = D.toList ++ "-Nomalized".toList from
    String.data_append D "-Nomalized"]
  rw [List.getLast?_append]
  rfl

theorem stem_append_head_ne_sep (fp ext : String)
    (hext : ext.toList.head? ≠ some '/') :
    ((splitextStem (basename fp)) ++ ext).toList.head? ≠ some '/' := by
  rw [show ((splitextStem (basename fp)) ++ ext).toList
      = (splitextStem (basename fp)).toList ++ ext.toList from
    String.data_append _ _]
  cases hst : (splitextStem (basename fp)).toList with
  | nil => simpa using hext
  | cons c cs =>
    simp only [List.cons_append, List.head?_cons, ne_eq, Option.some.injEq]
    intro hc
    have hmem : c ∈ (splitextStem (basename fp)).toList := by
      rw [hst]; exact List.mem_cons_self _ _
    exact basename_ne_sep fp c (mem_splitextStem (basename fp) c hmem) hc

/-! ### Claim theorems -/

/-- C1: for every list of N input files and every worker count K ≥ 1,
`process_audio_files` produces exactly one result per task — N results in
total, a permutation of the per-file results, none duplicated or dropped —
and the progress callback is invoked exactly once per completed task, with
first argument 1, 2, ..., N (increasing by exactly 1) and second argument
always N. -/
theorem C1_results_and_progress (env : Env) (g : Globals)
    (file_list : List String) (output_dir output_format : String)
    (max_workers : Nat) (_hK : 1 ≤ max_workers)
    (order : List String) (hperm : order.Perm file_list) :
    (completionResults env g output_dir output_format order).length =
        file_list.length ∧
    (completionResults env g output_dir output_format order).Perm
      (file_list.map fun fp =>
        process_single_file env g fp output_dir output_format) ∧
    progressCalls env g file_list output_dir output_format order =
      (List.range file_list.length).map (fun i => (i + 1, file_list.length)) := by
  refine ⟨?_, ?_, ?_⟩
  · simp [completionResults, hperm.length_eq]
  · simpa [completionResults] using
      hperm.map (fun fp => process_single_file env g fp output_dir output_format)
  · unfold progressCalls
    rw [dispatchLoop_calls]
    simp [completionResults, hperm.length_eq]

/-- Witness for C1 at a concrete two-file batch with a nontrivial
completion order. -/
theorem C1_results_and_progress_witness :
    progressCalls envOK gCPU ["/in/a.wav", "/in/bad.wav"] "/in-Nomalized" "wav"
        ["/in/bad.wav", "/in/a.wav"] =
      (List.range 2).map (fun i => (i + 1, 2)) :=
  (C1_results_and_progress envOK gCPU ["/in/a.wav", "/in/bad.wav"]
    "/in-Nomalized" "wav" 1 (by decide) ["/in/bad.wav", "/in/a.wav"]
    (by decide)).2.2

/-- C3: an exception at any stage of a task (decode, effect application, or
file write) is converted at the task boundary into a failure-message result
that contains the source path and the underlying cause; and regardless of
such failures, every sibling task in any completion order is still executed
and produces its own result (the result list always has one entry per task). -/
theorem C3_failure_isolated (env : Env) (g : Globals)
    (fp output_dir output_format cause : String)
    (h : raisesWith env g fp cause) :
    process_single_file env g fp output_dir output_format =
        processingErrMsg fp cause ∧
    containsSub fp (process_single_file env g fp output_dir output_format) =
        true ∧
    containsSub cause (process_single_file env g fp output_dir output_format) =
        true ∧
    ∀ (file_list order : List String), order.Perm file_list →
      (completionResults env g output_dir output_format order).length =
          file_list.length ∧
      ∀ fq ∈ order, process_single_file env g fq output_dir output_format ∈
        completionResults env g output_dir output_format order := by
  have hres := process_single_file_of_raises env g fp output_dir output_format
    cause h
  refine ⟨hres, ?_, ?_, ?_⟩
  · rw [hres]
    exact containsSub_processingErrMsg_path fp cause
  · rw [hres]
    exact containsSub_processingErrMsg_cause fp cause
  · intro file_list order hperm
    constructor
    · simp [completionResults, hperm.length_eq]
    · intro fq hfq
      simp only [completionResults]
      exact List.mem_map_of_mem _ hfq

/-- Witness for C3: a decode failure on a concrete file, alongside a sibling
that still yields a result. -/
theorem C3_failure_isolated_witness :
    process_single_file envBad gCPU "/in/bad.wav" "/in-Nomalized" "wav" =
      processingErrMsg "/in/bad.wav" "Failed to decode" ∧
    containsSub "/in/bad.wav"
      (process_single_file envBad gCPU "/in/bad.wav" "/in-Nomalized" "wav") =
        true ∧
    containsSub "Failed to decode"
      (process_single_file envBad gCPU "/in/bad.wav" "/in-Nomalized" "wav") =
        true ∧
    (completionResults envBad gCPU "/in-Nomalized" "wav"
        ["/in/bad.wav", "/in/a.wav"]).length = 2 := by
  have h := C3_failure_isolated envBad gCPU "/in/bad.wav" "/in-Nomalized" "wav"
    "Failed to decode" (by decide)
  exact ⟨h.1, h.2.1, h.2.2.1,
    (h.2.2.2 ["/in/a.wav", "/in/bad.wav"] ["/in/bad.wav", "/in/a.wav"]
      (by decide)).1⟩

/-- C5: for a fixed input list, output directory and format, any two runs
with worker counts K1, K2 ≥ 1 (hence any two completion orders) classify the
same tasks as failing and the same tasks as succeeding (equal as multisets),
produce permutation-equal error reports, and agree on whether the batch
outcome is success. -/
theorem C5_worker_count_equivalence (env : Env) (g : Globals)
    (file_list : List String) (output_dir output_format : String)
    (K1 K2 : Nat) (_hK1 : 1 ≤ K1) (_hK2 : 1 ≤ K2)
    (order1 order2 : List String)
    (h1 : order1.Perm file_list) (h2 : order2.Perm file_list) :
    (order1.filter fun fp =>
        containsErr (process_single_file env g fp output_dir output_format)).Perm
      (order2.filter fun fp =>
        containsErr (process_single_file env g fp output_dir output_format)) ∧
    (order1.filter fun fp =>
        !containsErr (process_single_file env g fp output_dir output_format)).Perm
      (order2.filter fun fp =>
        !containsErr (process_single_file env g fp output_dir output_format)) ∧
    (errorReport env g file_list output_dir output_format order1).Perm
      (errorReport env g file_list output_dir output_format order2) ∧
    (process_audio_files env g file_list output_dir output_format K1 order1 =
        none ↔
      process_audio_files env g file_list output_dir output_format K2 order2 =
        none) := by
  have h12 : order1.Perm order2 := h1.trans h2.symm
  have herr : (errorReport env g file_list output_dir output_format order1).Perm
      (errorReport env g file_list output_dir output_format order2) := by
    unfold errorReport
    rw [dispatchLoop_errors, dispatchLoop_errors]
    exact (h12.map _).filter _
  refine ⟨h12.filter _, h12.filter _, herr, ?_⟩
  rw [process_audio_files_none_iff, process_audio_files_none_iff]
  constructor
  · intro he
    have hp := herr
    rw [he] at hp
    exact hp.symm.eq_nil
  · intro he
    have hp := herr
    rw [he] at hp
    exact hp.eq_nil

/-- Witness for C5: equal reports and agreeing outcomes across worker counts
1 and 4 with opposite completion orders. -/
theorem C5_worker_count_equivalence_witness :
    (errorReport envBad gCPU ["/in/a.wav", "/in/bad.wav"] "/in-Nomalized" "wav"
        ["/in/a.wav", "/in/bad.wav"]).Perm
      (errorReport envBad gCPU ["/in/a.wav", "/in/bad.wav"] "/in-Nomalized"
        "wav" ["/in/bad.wav", "/in/a.wav"]) ∧
    (process_audio_files envBad gCPU ["/in/a.wav", "/in/bad.wav"]
        "/in-Nomalized" "wav" 1 ["/in/a.wav", "/in/bad.wav"] = none ↔
      process_audio_files envBad gCPU ["/in/a.wav", "/in/bad.wav"]
        "/in-Nomalized" "wav" 4 ["/in/bad.wav", "/in/a.wav"] = none) := by
  have h := C5_worker_count_equivalence envBad gCPU
    ["/in/a.wav", "/in/bad.wav"] "/in-Nomalized" "wav" 1 4 (by decide)
    (by decide) ["/in/a.wav", "/in/bad.wav"] ["/in/bad.wav", "/in/a.wav"]
    (by decide) (by decide)
  exact ⟨h.2.2.1, h.2.2.2⟩

/-- C6: the batch outcome is `None` (success) exactly when the dispatcher
recorded no failure; otherwise it is `"\n".join` of exactly the recorded
failure messages in completion (arrival) order; the report is precisely the
results classified as failures, and no genuine failure is ever discarded:
every task whose processing raised contributes its message to the report
(failure messages always contain `"エラー"`). -/
theorem C6_batch_outcome (env : Env) (g : Globals)
    (file_list : List String) (output_dir output_format : String)
    (max_workers : Nat) (order : List String) :
    (process_audio_files env g file_list output_dir output_format max_workers
          order = none ↔
      errorReport env g file_list output_dir output_format order = []) ∧
    (errorReport env g file_list output_dir output_format order ≠ [] →
      process_audio_files env g file_list output_dir output_format max_workers
          order =
        some (String.intercalate "\n"
          (errorReport env g file_list output_dir output_format order))) ∧
    errorReport env g file_list output_dir output_format order =
      (completionResults env g output_dir output_format order).filter
        (fun r => containsErr r) ∧
    ∀ fp ∈ order, ∀ cause, raisesWith env g fp cause →
      processingErrMsg fp cause ∈
        errorReport env g file_list output_dir output_format order := by
  refine ⟨process_audio_files_none_iff env g file_list output_dir
    output_format max_workers order, ?_, ?_, ?_⟩
  · intro hne
    unfold errorReport at hne ⊢
    unfold process_audio_files
    cases hEmpty : (dispatchLoop file_list.length
        (completionResults env g output_dir output_format order)).errors.isEmpty with
    | true => exact absurd (List.isEmpty_iff.mp hEmpty) hne
    | false => simp [hEmpty]
  · unfold errorReport
    exact dispatchLoop_errors file_list.length
      (completionResults env g output_dir output_format order)
  · intro fp hfp cause hraise
    unfold errorReport
    rw [dispatchLoop_errors]
    apply List.mem_filter.mpr
    constructor
    · rw [← process_single_file_of_raises env g fp output_dir output_format
        cause hraise]
      exact List.mem_map_of_mem _ hfp
    · exact containsErr_processingErrMsg fp cause

/-- Witness for C6: a two-file batch with one decode failure yields the
joined report and contains the failing task's message. -/
theorem C6_batch_outcome_witness :
    process_audio_files envBad gCPU ["/in/a.wav", "/in/bad.wav"]
        "/in-Nomalized" "wav" 2 ["/in/a.wav", "/in/bad.wav"] =
      some (String.intercalate "\n"
        (errorReport envBad gCPU ["/in/a.wav", "/in/bad.wav"] "/in-Nomalized"
          "wav" ["/in/a.wav", "/in/bad.wav"])) ∧
    processingErrMsg "/in/bad.wav" "Failed to decode" ∈
      errorReport envBad gCPU ["/in/a.wav", "/in/bad.wav"] "/in-Nomalized"
        "wav" ["/in/a.wav", "/in/bad.wav"] := by
  have h := C6_batch_outcome envBad gCPU ["/in/a.wav", "/in/bad.wav"]
    "/in-Nomalized" "wav" 2 ["/in/a.wav", "/in/bad.wav"]
  exact ⟨h.2.1 (by decide),
    h.2.2.2 "/in/bad.wav" (by decide) "Failed to decode" (by decide)⟩

/-- C9: the dispatcher classifies a completed result as a failure exactly
when the result string contains the substring `"エラー"`; consequently a task
whose source path contains that substring succeeds (returns its output path,
having written the file) yet is recorded as a failure in the batch outcome. -/
theorem C9_substring_classification :
    (∀ (total : Nat) (rs : List String),
      (dispatchLoop total rs).errors = rs.filter (fun r => containsErr r)) ∧
    process_single_file envOK gCPU "/in/エラー.wav" "/in-Nomalized" "wav" =
      "/in-Nomalized/エラー.wav" ∧
    containsErr "/in-Nomalized/エラー.wav" = true ∧
    process_audio_files envOK gCPU ["/in/エラー.wav"] "/in-Nomalized" "wav" 1
      ["/in/エラー.wav"] = some "/in-Nomalized/エラー.wav" :=
  ⟨dispatchLoop_errors, by decide, by decide, by decide⟩

/-- C2: with 0 < completed < total the displayed status appends a remaining
time equal to `(elapsed / completed) * (total - completed)` rendered `MM:SS`
with floored minutes (`⌊r⌋ / 60`) and floored seconds of the remainder
(`⌊r⌋ % 60`); with completed = 0 no ETA is shown (no division occurs); with
completed = total no remaining-time field is produced; and the spec's
example — completed 1 of 4 after 10 s — displays `00:30`. -/
theorem C2_progress_eta :
    (∀ (m : Nat) (e : ℚ), update_progress_status 0 m e =
      "処理中... (" ++ toString 0 ++ "/" ++ toString m ++ ")") ∧
    (∀ (v : Nat) (e : ℚ), update_progress_status v v e =
      "処理中... (" ++ toString v ++ "/" ++ toString v ++ ")") ∧
    (∀ (v m : Nat) (e : ℚ), 0 < v → v < m →
      update_progress_status v m e =
        "処理中... (" ++ toString v ++ "/" ++ toString m ++ ")" ++
          " - 残り時間: 約" ++
          fmt02 (⌊e / (v : ℚ) * ((m : ℚ) - (v : ℚ))⌋ / 60) ++ ":" ++
          fmt02 (⌊e / (v : ℚ) * ((m : ℚ) - (v : ℚ))⌋ % 60)) ∧
    update_progress_status 1 4 10 = "処理中... (1/4) - 残り時間: 約00:30" := by
  refine ⟨?_, ?_, ?_, ?_⟩
  · intro m e
    simp only [update_progress_status]
    rw [if_neg (by omega : ¬((0:Nat) < 0 ∧ 0 < m))]
  · intro v e
    simp only [update_progress_status]
    rw [if_neg (by omega : ¬(0 < v ∧ v < v))]
  · intro v m e hv hm
    simp only [update_progress_status]
    rw [if_pos ⟨hv, hm⟩, floor_sub_sixty_floor, floor_div_sixty]
  · simp only [update_progress_status]
    rw [if_pos (by omega : (0:Nat) < 1 ∧ (1:Nat) < 4), floor_sub_sixty_floor,
      floor_div_sixty]
    have h30 : ⌊(10 : ℚ) / ((1:Nat) : ℚ) * (((4:Nat) : ℚ) - ((1:Nat) : ℚ))⌋ =
        30 := by norm_num
    rw [h30]
    decide

/-- Witness for C2 at completed 2 of 5 after 125 s of elapsed time. -/
theorem C2_progress_eta_witness :
    (0:Nat) < 2 ∧ (2:Nat) < 5 ∧
    update_progress_status 2 5 125 =
      "処理中... (" ++ toString 2 ++ "/" ++ toString 5 ++ ")" ++
        " - 残り時間: 約" ++
        fmt02 (⌊(125:ℚ) / ((2:Nat) : ℚ) * (((5:Nat) : ℚ) - ((2:Nat) : ℚ))⌋ / 60) ++
        ":" ++
        fmt02 (⌊(125:ℚ) / ((2:Nat) : ℚ) * (((5:Nat) : ℚ) - ((2:Nat) : ℚ))⌋ % 60) :=
  ⟨by decide, by decide, C2_progress_eta.2.2.1 2 5 125 (by decide) (by decide)⟩

/-- C4 counterexample: with FFmpeg present, a `--no-gui` run without
`--input` goes through argparse's `parser.error`, which exits with status 2,
not 1 as the claim states. -/
theorem C4_counterexample :
    main_nogui fsW envOK gCPU true none "wav" 1 [] = MainResult.exit 2 ∧
    main_nogui fsW envOK gCPU true none "wav" 1 [] ≠ MainResult.exit 1 :=
  ⟨rfl, by decide⟩

/-- C4 amended: in `--no-gui` mode the process exits with code 1 when FFmpeg
is missing, when the input path is not a directory, or when the directory
holds no matching audio files; a missing `--input` instead exits with code 2
(argparse's `parser.error`). -/
theorem C4_amended_exit_codes (fs : FS) (env : Env) (g : Globals)
    (fmt : String) (w : Nat) (order : List String) :
    (∀ input_dir, main_nogui fs env g false input_dir fmt w order =
      MainResult.exit 1) ∧
    main_nogui fs env g true none fmt w order = MainResult.exit 2 ∧
    (∀ d, fs.isDir d = false →
      main_nogui fs env g true (some d) fmt w order = MainResult.exit 1) ∧
    (∀ d, fs.isDir d = true → (fs.listDir d).filter hasAudioExt = [] →
      main_nogui fs env g true (some d) fmt w order = MainResult.exit 1) := by
  refine ⟨fun input_dir => rfl, rfl, ?_, ?_⟩
  · intro d hd
    simp [main_nogui, get_audio_files, hd]
  · intro d hd hfil
    simp [main_nogui, get_audio_files, hd, hfil]

/-- Witness for C4 amended, on a concrete filesystem: an existing input
directory with FFmpeg missing, a missing `--input`, a non-directory path,
and a directory with no audio files. -/
theorem C4_amended_exit_codes_witness :
    main_nogui fsW envOK gCPU false (some "/in") "wav" 1 [] =
        MainResult.exit 1 ∧
    main_nogui fsW envOK gCPU true none "wav" 1 [] = MainResult.exit 2 ∧
    main_nogui fsW envOK gCPU true (some "/nodir") "wav" 1 [] =
        MainResult.exit 1 ∧
    main_nogui fsW envOK gCPU true (some "/empty") "wav" 1 [] =
        MainResult.exit 1 := by
  have h := C4_amended_exit_codes fsW envOK gCPU "wav" 1 []
  exact ⟨h.1 (some "/in"), h.2.1, h.2.2.1 "/nodir" (by decide),
    h.2.2.2 "/empty" (by decide) (by decide)⟩

/-- C7: the batch output directory for input directory D is exactly the
string `D ++ "-Nomalized"`, and a successfully processed source file is
written into it under the source's basename with its extension replaced by
`.wav` or `.mp3` according to the chosen format. -/
theorem C7_output_layout (env : Env) (g : Globals) (D fp fmt : String)
    (hok : noFail env g fp) (hfmt : fmt = "wav" ∨ fmt = "mp3") :
    cuiOutputDir D = D ++ "-Nomalized" ∧
    process_single_file env g fp (cuiOutputDir D) fmt =
      cuiOutputDir D ++ "/" ++ (splitextStem (basename fp) ++ ("." ++ fmt)) := by
  refine ⟨rfl, ?_⟩
  rw [process_single_file_of_noFail env g fp (cuiOutputDir D) fmt hok]
  unfold outputPathFor
  have hdir1 := nomalized_toList_ne_nil D
  have hdir2 : (cuiOutputDir D).toList.getLast? ≠ some '/' := by
    rw [nomalized_getLast D]
    decide
  rcases hfmt with h | h <;> subst h
  · rw [if_pos (by decide : ("wav" == "wav") = true),
      joinPath_of_plain _ _ hdir1 hdir2
        (stem_append_head_ne_sep fp ".wav" (by decide)),
      show (".wav" : String) = "." ++ "wav" from rfl]
  · rw [if_neg (by decide : ¬(("mp3" == "wav") = true)),
      joinPath_of_plain _ _ hdir1 hdir2
        (stem_append_head_ne_sep fp ".mp3" (by decide)),
      show (".mp3" : String) = "." ++ "mp3" from rfl]

/-- Witness for C7: `/audio/clip.wav` converted to mp3 lands at
`/audio-Nomalized/clip.mp3`. -/
theorem C7_output_layout_witness :
    cuiOutputDir "/audio" = "/audio" ++ "-Nomalized" ∧
    process_single_file envOK gCPU "/audio/clip.wav" (cuiOutputDir "/audio")
        "mp3" =
      cuiOutputDir "/audio" ++ "/" ++
        (splitextStem (basename "/audio/clip.wav") ++ ("." ++ "mp3")) ∧
    process_single_file envOK gCPU "/audio/clip.wav" (cuiOutputDir "/audio")
        "mp3" = "/audio-Nomalized/clip.mp3" := by
  have h := C7_output_layout envOK gCPU "/audio" "/audio/clip.wav" "mp3"
    (by decide) (Or.inr rfl)
  exact ⟨h.1, h.2, h.2.trans (by decide)⟩

/-- C8 counterexample: two invocations of the worker that agree on every
explicit input but run under different values of the module global `DEVICE`
return different results — the worker reads the backend from hidden global
state, it is not an explicit input of the invocation. -/
theorem C8_counterexample :
    process_single_file envCudaOOM ⟨Device.cuda⟩ "/in/a.wav" "/in-Nomalized"
        "wav" ≠
      process_single_file envCudaOOM ⟨Device.cpu⟩ "/in/a.wav" "/in-Nomalized"
        "wav" := by decide

/-- C8 amended: the backend is resolved into the module-global `DEVICE`
(cuda if available, else cpu, at module import); each worker behaves exactly
like the spec's explicit-backend effect chain applied to that global — so
the global is the backend actually used, it is not passed as a parameter of
`process_single_file`, and worker behaviour genuinely depends on it. -/
theorem C8_amended_global_device :
    (∀ c, torch_device c = if c then Device.cuda else Device.cpu) ∧
    (∀ (env : Env) (g : Globals) (fp dir fmt : String),
      process_single_file env g fp dir fmt =
        effectChain_spec env g.DEVICE fp dir fmt) ∧
    ∃ (env : Env) (d1 d2 : Device) (fp dir fmt : String),
      effectChain_spec env d1 fp dir fmt ≠ effectChain_spec env d2 fp dir fmt :=
  ⟨fun _ => rfl, fun env g fp dir fmt => rfl,
    ⟨envCudaOOM, Device.cuda, Device.cpu, "/in/a.wav", "x", "wav", by decide⟩⟩

/-- C10: in `--no-gui` mode, whenever discovery succeeds the batch runs and
`main` returns normally, so the process exit status is 0 — also when the
batch outcome carries per-file failures, the same status as a fully
successful run. -/
theorem C10_errors_still_exit_zero (fs : FS) (env : Env) (g : Globals)
    (fmt : String) (w : Nat) (order : List String) (dir : String)
    (hdisc : (get_audio_files fs dir).2 = none) :
    main_nogui fs env g true (some dir) fmt w order =
      MainResult.finished (process_audio_files env g
        ((get_audio_files fs dir).1.getD []) (cuiOutputDir dir) fmt w order) ∧
    exitCode (main_nogui fs env g true (some dir) fmt w order) = 0 := by
  have hmain : main_nogui fs env g true (some dir) fmt w order =
      MainResult.finished (process_audio_files env g
        ((get_audio_files fs dir).1.getD []) (cuiOutputDir dir) fmt w
        order) := by
    simp [main_nogui, hdisc]
  exact ⟨hmain, by rw [hmain]; rfl⟩

/-- Witness for C10: a concrete batch with one failing file finishes with a
`CompletedWithErrors`-style outcome yet exit status 0. -/
theorem C10_errors_still_exit_zero_witness :
    main_nogui fsW envBad gCPU true (some "/in") "wav" 1
        ["/in/a.wav", "/in/bad.wav"] =
      MainResult.finished (some (processingErrMsg "/in/bad.wav"
        "Failed to decode")) ∧
    exitCode (main_nogui fsW envBad gCPU true (some "/in") "wav" 1
        ["/in/a.wav", "/in/bad.wav"]) = 0 := by
  have h := C10_errors_still_exit_zero fsW envBad gCPU "wav" 1
    ["/in/a.wav", "/in/bad.wav"] "/in" (by decide)
  exact ⟨h.1.trans (by decide), h.2⟩

end WavsNomalizer
